import Mathlib

/-!
Verification of the tabular Q-learning core of
`src/week_1/understanding_frozenlake.ipynb`.

The notebook defines three functions:

* `greedy_epsilon(qtable, state)` — epsilon-greedy action selection;
* `run_env()` — the training loop (Q-learning update rule);
* `evaluation(qtable, num_trials)` — the greedy evaluation loop.

We embed them shallowly.  A Q-table is a function `Nat → Nat → ℚ`
(state → action → value); numpy float64 arithmetic is modelled by exact
rationals, which agrees with the reference numerics far below the
tolerances the spec states.  Randomness (`random.uniform(0, 1)` and
`env.action_space.sample()`) is made explicit: every step of a loop
receives the pair of draws it would consume.  The external environment
is an oblivious oracle: each episode comes with its reset state and the
finite list of step results Gymnasium would return.
-/

/-- Hyperparameters of the run (the notebook's module-level
`alpha`, `gamma`, `epsilon` globals). -/
structure Hyper where
  alpha : ℚ
  gamma : ℚ
  epsilon : ℚ

/-- `np.argmax(row)` over action indices `0, …, A-1`: index of the first
occurrence of the maximum (ties broken by lowest index). -/
def npArgmax (row : Nat → ℚ) (A : Nat) : Nat :=
  (List.range A).foldl (fun best i => if row best < row i then i else best) 0

/-- The maximum value of a row over action indices `0, …, A-1`
(for `A = 0` this is `row 0`, matching `npArgmax` returning `0`). -/
def rowMax (row : Nat → ℚ) (A : Nat) : ℚ :=
  (List.range A).foldl (fun m i => max m (row i)) (row 0)

/-- `np.all(row)` over action indices `0, …, A-1`: true iff every entry is
truthy, i.e. nonzero (numpy float truthiness). -/
def npAll (row : Nat → ℚ) (A : Nat) : Bool :=
  (List.range A).all fun i => row i != 0

/-- The numeric value of a numpy bool when compared against a float with
`==`: `True` is `1.0`, `False` is `0.0`. -/
def boolFloat (b : Bool) : ℚ :=
  if b then 1 else 0

/-- `greedy_epsilon(qtable, state)` from the notebook.

```
if random.uniform(0, 1) < epsilon:
  action = env.action_space.sample()
else:
  if np.all(qtable[state, :]) == qtable[state, 0]:
    action = env.action_space.sample()
  else:
    action = np.argmax(qtable[state, :])
return action
```

`u` is the draw of `random.uniform(0, 1)` and `randA` the draw of
`env.action_space.sample()`; `A` is the action-space size. -/
def greedy_epsilon (hp : Hyper) (qtable : Nat → Nat → ℚ) (A : Nat) (state : Nat)
    (u : ℚ) (randA : Nat) : Nat :=
  if u < hp.epsilon then
    randA
  else
    if boolFloat (npAll (qtable state) A) = qtable state 0 then
      randA
    else
      npArgmax (qtable state) A

/-- The Q-learning update performed by one iteration of `run_env`'s inner
loop:

```
next_best_action = np.argmax(qtable[new_state, :])
td_target = reward + gamma * qtable[new_state, next_best_action]
td_error = td_target - qtable[state, action]
qtable[state, action] += alpha * td_error
```

Returns the table after the in-place write. -/
def qUpdate (hp : Hyper) (qtable : Nat → Nat → ℚ) (A : Nat)
    (state action : Nat) (reward : ℚ) (new_state : Nat) : Nat → Nat → ℚ :=
  let next_best_action := npArgmax (qtable new_state) A
  let td_target := reward + hp.gamma * qtable new_state next_best_action
  let td_error := td_target - qtable state action
  fun s a => if s = state ∧ a = action then qtable state action + hp.alpha * td_error
             else qtable s a

/-- The all-zero table produced by
`np.zeros((env.observation_space.n, env.action_space.n))`. -/
def zeroTable : Nat → Nat → ℚ := fun _ _ => 0

/-- The C4 hyperparameters: `alpha = 0.1`, `gamma = 0.9`, `r = 1`. -/
def hpConv : Hyper := { alpha := 1/10, gamma := 9/10, epsilon := 0 }

/-- Replaying the same self-loop transition `(s = 0, a = 0, r = 1, s' = 0)`
through the update rule, starting from the all-zero table (`S = A = 1`, so
action 0 is the greedy action throughout). -/
def selfLoopIter : Nat → (Nat → Nat → ℚ)
  | 0 => zeroTable
  | n + 1 => qUpdate hpConv (selfLoopIter n) 1 0 0 1 0

/-- One step result from the environment:
`new_state, reward, terminated, truncated, info = env.step(action)`
(the `info` dict is never consulted and is omitted). -/
structure StepOutcome where
  new_state : Nat
  reward : ℚ
  terminated : Bool
  truncated : Bool

/-- The two random draws one pass of the training loop's body may consume:
`random.uniform(0, 1)` and `env.action_space.sample()`. -/
structure StepRand where
  u : ℚ
  randA : Nat

/-- One training episode as the environment oracle delivers it: the state
returned by `env.reset()` and the successive step results. -/
structure Episode where
  init_state : Nat
  trace : List (StepRand × StepOutcome)

/-- The state of `run_env`'s inner `while not done` loop. -/
structure EpState where
  qtable : Nat → Nat → ℚ
  state : Nat
  episode_rewards : ℚ
  episode_steps : Nat
  done : Bool

/-- One pass of the body of `run_env`'s `while not done` loop. -/
def trainStep (hp : Hyper) (A : Nat) (st : EpState) (rnd : StepRand)
    (out : StepOutcome) : EpState :=
  let action := greedy_epsilon hp st.qtable A st.state rnd.u rnd.randA
  { qtable := qUpdate hp st.qtable A st.state action out.reward out.new_state
    state := out.new_state
    episode_rewards := st.episode_rewards + out.reward
    episode_steps := st.episode_steps + 1
    done := out.terminated || out.truncated }

/-- `run_env`'s `while not done` loop, driven by the finite oracle trace. -/
def runEpisodeAux (hp : Hyper) (A : Nat) :
    EpState → List (StepRand × StepOutcome) → EpState
  | st, [] => st
  | st, step :: rest =>
      if st.done then st
      else runEpisodeAux hp A (trainStep hp A st step.1 step.2) rest

/-- The loop state at `EpisodeStart`: `state, _ = env.reset()`, `done = False`,
`episode_rewards = 0`, `episode_steps = 0`. -/
def initEpState (q : Nat → Nat → ℚ) (s0 : Nat) : EpState :=
  { qtable := q, state := s0, episode_rewards := 0, episode_steps := 0, done := false }

/-- One full training episode. -/
def runEpisode (hp : Hyper) (A : Nat) (q : Nat → Nat → ℚ) (ep : Episode) : EpState :=
  runEpisodeAux hp A (initEpState q ep.init_state) ep.trace

/-- The state of `run_env`'s outer `for` loop: the table and the
`rewards`/`steps` lists. -/
structure RunState where
  qtable : Nat → Nat → ℚ
  rewards : List ℚ
  steps : List Nat

/-- `run_env`'s outer `for _ in range(num_episodes)` loop. -/
def runEpisodes (hp : Hyper) (A : Nat) : RunState → List Episode → RunState
  | rs, [] => rs
  | rs, ep :: rest =>
      let fs := runEpisode hp A rs.qtable ep
      runEpisodes hp A
        { qtable := fs.qtable
          rewards := rs.rewards ++ [fs.episode_rewards]
          steps := rs.steps ++ [fs.episode_steps] } rest

/-- The complete internal state of `run_env` after all episodes, starting
from the all-zero table and empty statistics lists. -/
def run_env_loop (hp : Hyper) (A : Nat) (episodes : List Episode) : RunState :=
  runEpisodes hp A { qtable := zeroTable, rewards := [], steps := [] } episodes

/-- `np.mean` of a list of floats. -/
def npMean (l : List ℚ) : ℚ := l.sum / l.length

/-- `np.max` of a list of naturals (meaningful for nonempty lists, as in the
notebook where one entry is appended per episode). -/
def npMaxNat (l : List Nat) : Nat := l.foldl max 0

/-- `run_env()`'s return value: `return qtable` — only the Q-table reaches
the caller. -/
def run_env (hp : Hyper) (A : Nat) (episodes : List Episode) : Nat → Nat → ℚ :=
  (run_env_loop hp A episodes).qtable

/-- The aggregates `run_env` itself prints before returning:
`np.mean(rewards)` and `np.max(steps)`. -/
def run_env_printed (hp : Hyper) (A : Nat) (episodes : List Episode) : ℚ × Nat :=
  (npMean (run_env_loop hp A episodes).rewards,
   npMaxNat (run_env_loop hp A episodes).steps)

/-- The state of `evaluation`'s inner `while not done` loop. -/
structure EvalEpState where
  qtable : Nat → Nat → ℚ
  state : Nat
  episode_reward : ℚ
  episode_steps : Nat
  done : Bool

/-- One pass of the body of `evaluation`'s `while not done` loop:
`action = np.argmax(qtable[state, :])`, step the environment, accumulate. -/
def evalStep (A : Nat) (st : EvalEpState) (out : StepOutcome) : EvalEpState :=
  let _action := npArgmax (st.qtable st.state) A
  { qtable := st.qtable
    state := out.new_state
    episode_reward := st.episode_reward + out.reward
    episode_steps := st.episode_steps + 1
    done := out.terminated || out.truncated }

/-- `evaluation`'s `while not done` loop, driven by the oracle trace
(greedy evaluation consumes no random draws). -/
def evalEpisodeAux (A : Nat) : EvalEpState → List StepOutcome → EvalEpState
  | st, [] => st
  | st, out :: rest =>
      if st.done then st
      else evalEpisodeAux A (evalStep A st out) rest

/-- One evaluation episode as the environment oracle delivers it. -/
structure EvalEpisode where
  init_state : Nat
  trace : List StepOutcome

/-- The per-run accumulators of `evaluation`: `num_successes`, `rewards`,
`steps`. -/
structure EvalState where
  num_successes : Nat
  rewards : List ℚ
  steps : List Nat

/-- `evaluation`'s outer `for _ in range(num_trials)` loop; the Q-table is
threaded through explicitly so that its preservation is a statement, not a
convention. -/
def evalEpisodes (A : Nat) :
    (Nat → Nat → ℚ) × EvalState → List EvalEpisode → (Nat → Nat → ℚ) × EvalState
  | (qt, es), [] => (qt, es)
  | (qt, es), ep :: rest =>
      let fs := evalEpisodeAux A
        { qtable := qt, state := ep.init_state, episode_reward := 0,
          episode_steps := 0, done := false } ep.trace
      evalEpisodes A
        (fs.qtable,
         { num_successes :=
             if fs.episode_reward = 1 then es.num_successes + 1 else es.num_successes
           rewards := es.rewards ++ [fs.episode_reward]
           steps := es.steps ++ [fs.episode_steps] }) rest

/-- The full result of `evaluation(qtable, num_trials)`: final table
reference and accumulators. -/
def evaluation_loop (qtable : Nat → Nat → ℚ) (A : Nat)
    (episodes : List EvalEpisode) : (Nat → Nat → ℚ) × EvalState :=
  evalEpisodes A (qtable, { num_successes := 0, rewards := [], steps := [] }) episodes

/-- What `evaluation` prints: mean reward, max steps, and
`num_successes / num_trials`. -/
def evaluation_printed (qtable : Nat → Nat → ℚ) (A : Nat)
    (episodes : List EvalEpisode) : ℚ × Nat × ℚ :=
  let res := evaluation_loop qtable A episodes
  (npMean res.2.rewards, npMaxNat res.2.steps,
   (res.2.num_successes : ℚ) / (episodes.length : ℚ))

/-- Resolve a (possibly negative) numpy index against axis length `n`:
indices in `[0, n)` are used as-is, indices in `[-n, 0)` silently wrap to
`n + i`, anything else raises `IndexError`. -/
def npResolve (n : Nat) (i : Int) : Except Unit Nat :=
  if 0 ≤ i ∧ i < (n : Int) then .ok i.toNat
  else if -(n : Int) ≤ i ∧ i < 0 then .ok ((n : Int) + i).toNat
  else .error ()

/-- The training-loop update with numpy's index bounds behaviour explicit,
in the order the notebook indexes the array: `qtable[new_state, :]`
(argmax and `td_target`), then `qtable[state, action]` (read for
`td_error`), then the write `qtable[state, action] += alpha * td_error`.
An `IndexError` aborts the step with no write. -/
def qUpdateChecked (hp : Hyper) (qtable : Nat → Nat → ℚ) (S A : Nat)
    (state action : Int) (reward : ℚ) (new_state : Int) :
    Except Unit (Nat → Nat → ℚ) := do
  let ns ← npResolve S new_state
  let next_best_action := npArgmax (qtable ns) A
  let td_target := reward + hp.gamma * qtable ns next_best_action
  let s ← npResolve S state
  let a ← npResolve A action
  let td_error := td_target - qtable s a
  return fun s0 a0 =>
    if s0 = s ∧ a0 = a then qtable s a + hp.alpha * td_error else qtable s0 a0

/-- The entry of a checked update at `(s, a)`, when it succeeded. -/
def okEntry (e : Except Unit (Nat → Nat → ℚ)) (s a : Nat) : Except Unit ℚ :=
  e.map fun t => t s a

theorem foldl_argmax_eq_foldl_max (row : Nat → ℚ) (l : List Nat) (b : Nat) :
    row (l.foldl (fun best i => if row best < row i then i else best) b) =
    l.foldl (fun m i => max m (row i)) (row b) := by
  induction l generalizing b with
  | nil => rfl
  | cons i t ih =>
      show row (t.foldl _ (if row b < row i then i else b)) =
        t.foldl _ (max (row b) (row i))
      rw [ih]
      congr 1
      by_cases h : row b < row i
      · simp [h, max_eq_right (le_of_lt h)]
      · simp [h, max_eq_left (not_lt.mp h)]

theorem npArgmax_spec (row : Nat → ℚ) (A : Nat) :
    row (npArgmax row A) = rowMax row A :=
  foldl_argmax_eq_foldl_max row (List.range A) 0

theorem qUpdate_at (hp : Hyper) (q : Nat → Nat → ℚ) (A s a : Nat) (r : ℚ) (s' : Nat) :
    qUpdate hp q A s a r s' s a
      = q s a + hp.alpha * ((r + hp.gamma * rowMax (q s') A) - q s a) := by
  unfold qUpdate
  simp [npArgmax_spec]

/-- The notebook's hyperparameter cell: `alpha = 0.1`, `gamma = 0.99`,
`epsilon = 0.1`. -/
def hpSrc : Hyper := { alpha := 1/10, gamma := 99/100, epsilon := 1/10 }

/-- C1: one application of the update rule sets `table[s,a]` to
`old + alpha * ((r + gamma * max_a' table[s',a']) - old)` (the composition of
`td_target = r + gamma * table[s', best_next]` with `best_next` the argmax, and
`td_error = td_target - table[s,a]`); with `gamma = 0` and `r = 1` the new
value is `old + alpha * (1 - old)`, and starting from a zero entry it is
exactly `alpha`. -/
theorem qUpdate_formula (hp : Hyper) (q : Nat → Nat → ℚ) (A s a : Nat)
    (r : ℚ) (s' : Nat) :
    qUpdate hp q A s a r s' s a
        = q s a + hp.alpha * ((r + hp.gamma * rowMax (q s') A) - q s a)
    ∧ (∀ α ε : ℚ, qUpdate ⟨α, 0, ε⟩ q A s a 1 s' s a = q s a + α * (1 - q s a))
    ∧ (∀ α ε : ℚ, qUpdate ⟨α, 0, ε⟩ zeroTable A s a 1 s' s a = α) := by
  refine ⟨qUpdate_at hp q A s a r s', fun α ε => ?_, fun α ε => ?_⟩
  · rw [qUpdate_at]; ring
  · rw [qUpdate_at]; show (0:ℚ) + α * ((1 + 0 * _) - 0) = α; ring

/-- C10: a single application of the update rule leaves every entry other
than `(s, a)` unchanged. -/
theorem qUpdate_frame (hp : Hyper) (q : Nat → Nat → ℚ) (A s a : Nat)
    (r : ℚ) (s' s0 a0 : Nat) (h : ¬(s0 = s ∧ a0 = a)) :
    qUpdate hp q A s a r s' s0 a0 = q s0 a0 := by
  unfold qUpdate
  simp [h]

theorem qUpdate_frame_witness :
    ¬((1 : Nat) = 0 ∧ (0 : Nat) = 0) ∧
    qUpdate hpSrc zeroTable 4 0 0 1 0 1 0 = zeroTable 1 0 :=
  ⟨by decide, qUpdate_frame hpSrc zeroTable 4 0 0 1 0 1 0 (by decide)⟩

/-- A 3-action Q-table whose row is `[1, 2, 3]`: a strict unique maximum at
action index 2, with first entry `1.0`. -/
def qtable123 : Nat → Nat → ℚ :=
  fun _ a => if a = 0 then 1 else if a = 1 then 2 else 3

/-- A 4-action Q-table whose row is `[2, 2, 2, 2]`: all entries equal and
nonzero. -/
def qtable2s : Nat → Nat → ℚ := fun _ _ => 2

/-- C2: on the row `[1, 2, 3]` — a strict unique maximum at index 2 — the
selector with `epsilon = 0` does NOT return the argmax: the guard
`np.all(qtable[state, :]) == qtable[state, 0]` evaluates to
`True == 1.0 = True` (every entry is nonzero and the first entry is `1.0`),
so the selector falls into the random branch and returns whatever
`env.action_space.sample()` drew. -/
theorem greedy_epsilon_strict_max_bug :
    qtable123 0 0 < qtable123 0 2 ∧ qtable123 0 1 < qtable123 0 2 ∧
    npArgmax (qtable123 0) 3 = 2 ∧
    greedy_epsilon ⟨1/10, 99/100, 0⟩ qtable123 3 0 (1/2) 0 = 0 ∧
    greedy_epsilon ⟨1/10, 99/100, 0⟩ qtable123 3 0 (1/2) 1 = 1 := by
  refine ⟨by norm_num [qtable123], by norm_num [qtable123], ?_, ?_, ?_⟩
  · norm_num [npArgmax, qtable123, List.range_succ]
  · norm_num [greedy_epsilon, npAll, boolFloat, qtable123, List.range_succ]
  · norm_num [greedy_epsilon, npAll, boolFloat, qtable123, List.range_succ]

/-- C3: on the all-equal nonzero row `[2, 2, 2, 2]` the exploitation branch
does NOT return a random action: the guard compares `True == 2.0`, which is
false, so `np.argmax` runs on the constant row and deterministically returns
index 0, whatever the random draw was. -/
theorem greedy_epsilon_equal_row_bug :
    qtable2s 0 0 = qtable2s 0 1 ∧ qtable2s 0 1 = qtable2s 0 2 ∧
    qtable2s 0 2 = qtable2s 0 3 ∧
    greedy_epsilon ⟨1/10, 99/100, 0⟩ qtable2s 4 0 (1/2) 1 = 0 ∧
    greedy_epsilon ⟨1/10, 99/100, 0⟩ qtable2s 4 0 (1/2) 3 = 0 := by
  refine ⟨rfl, rfl, rfl, ?_, ?_⟩
  · norm_num [greedy_epsilon, npAll, boolFloat, qtable2s, npArgmax, List.range_succ]
  · norm_num [greedy_epsilon, npAll, boolFloat, qtable2s, npArgmax, List.range_succ]

theorem rowMax_one (row : Nat → ℚ) : rowMax row 1 = row 0 := by
  unfold rowMax
  simp [List.range_succ]

theorem selfLoopIter_closed_form (n : Nat) :
    selfLoopIter n 0 0 = 10 * (1 - (99/100 : ℚ) ^ n) := by
  induction n with
  | zero => simp [selfLoopIter, zeroTable]
  | succ n ih =>
      show qUpdate hpConv (selfLoopIter n) 1 0 0 1 0 0 0 = _
      rw [qUpdate_at, rowMax_one, ih, pow_succ]
      show 10 * (1 - (99/100:ℚ)^n) + (1/10) * ((1 + (9/10) * (10 * (1 - (99/100:ℚ)^n))) - 10 * (1 - (99/100:ℚ)^n)) = _
      ring

set_option exponentiation.threshold 2001 in
set_option maxRecDepth 10000 in
theorem pow99_lt : (99 : Nat) ^ 1000 * 10000 < 100 ^ 1000 := by decide

theorem pow_frac_small : ((99 : ℚ) / 100) ^ 1000 < 1 / 10000 := by
  rw [div_pow, div_lt_div_iff (by positivity) (by norm_num)]
  rw [one_mul]
  exact_mod_cast pow99_lt

/-- C4: replaying the same self-loop transition 1000 times through the
update rule with `alpha = 0.1`, `gamma = 0.9`, `r = 1`, starting from a
zero-initialized entry, leaves `table[s,a]` within `1e-3` of the fixed point
`r / (1 - gamma) = 10`. -/
theorem selfLoopIter_converges : |selfLoopIter 1000 0 0 - 10| < 1/1000 := by
  rw [selfLoopIter_closed_form]
  have h : (10 : ℚ) * (1 - (99/100 : ℚ) ^ 1000) - 10 = -(10 * (99/100 : ℚ) ^ 1000) := by
    ring
  rw [h, abs_neg, abs_of_nonneg (by positivity)]
  have := pow_frac_small
  linarith

theorem qUpdate_zero (hp : Hyper) (A s a : Nat) (s' : Nat) :
    qUpdate hp zeroTable A s a 0 s' = zeroTable := by
  funext s0 a0
  unfold qUpdate zeroTable
  split <;> ring

/-- A one-step training episode with zero reward, ending `terminated`. -/
def epOneStep : Episode :=
  { init_state := 0
    trace := [(⟨1/2, 0⟩, ⟨0, 0, true, false⟩)] }

/-- A two-step training episode with zero rewards, ending `terminated` on the
second step. -/
def epTwoStep : Episode :=
  { init_state := 0
    trace := [(⟨1/2, 0⟩, ⟨0, 0, false, false⟩), (⟨1/2, 0⟩, ⟨0, 0, true, false⟩)] }

theorem run_env_epOneStep : run_env hpSrc 1 [epOneStep] = zeroTable := by
  show (run_env_loop hpSrc 1 [epOneStep]).qtable = zeroTable
  simp only [run_env_loop, runEpisodes, runEpisode, runEpisodeAux, initEpState,
    trainStep, epOneStep]
  simp [qUpdate_zero]

theorem run_env_epTwoStep : run_env hpSrc 1 [epTwoStep] = zeroTable := by
  show (run_env_loop hpSrc 1 [epTwoStep]).qtable = zeroTable
  simp only [run_env_loop, runEpisodes, runEpisode, runEpisodeAux, initEpState,
    trainStep, epTwoStep]
  simp [qUpdate_zero]

/-- C5: the training loop's terminal output (`return qtable`) does NOT make
the per-episode statistics sequences available to the caller: two runs whose
returned values are equal have different step-count sequences, so no caller
can derive the sequences from what `run_env` returns. -/
theorem run_env_drops_stats :
    run_env hpSrc 1 [epOneStep] = run_env hpSrc 1 [epTwoStep] ∧
    (run_env_loop hpSrc 1 [epOneStep]).steps ≠ (run_env_loop hpSrc 1 [epTwoStep]).steps := by
  constructor
  · rw [run_env_epOneStep, run_env_epTwoStep]
  · have h1 : (run_env_loop hpSrc 1 [epOneStep]).steps = [1] := rfl
    have h2 : (run_env_loop hpSrc 1 [epTwoStep]).steps = [2] := rfl
    rw [h1, h2]
    decide

theorem runEpisodes_lengths (hp : Hyper) (A : Nat) (eps : List Episode)
    (rs : RunState) :
    (runEpisodes hp A rs eps).rewards.length = rs.rewards.length + eps.length ∧
    (runEpisodes hp A rs eps).steps.length = rs.steps.length + eps.length := by
  induction eps generalizing rs with
  | nil => simp [runEpisodes]
  | cons ep rest ih =>
      unfold runEpisodes
      dsimp only
      constructor
      · rw [(ih _).1]
        simp
        omega
      · rw [(ih _).2]
        simp
        omega

/-- C5 (amended): `run_env` returns exactly the loop's final Q-table and
nothing else; the raw per-episode sequences stay internal, with one entry
per episode, and the loop itself prints their aggregates
(`np.mean(rewards)` and `np.max(steps)`). -/
theorem run_env_returns_table_only (hp : Hyper) (A : Nat) (episodes : List Episode) :
    run_env hp A episodes = (run_env_loop hp A episodes).qtable ∧
    run_env_printed hp A episodes =
      (npMean (run_env_loop hp A episodes).rewards,
       npMaxNat (run_env_loop hp A episodes).steps) ∧
    (run_env_loop hp A episodes).rewards.length = episodes.length ∧
    (run_env_loop hp A episodes).steps.length = episodes.length := by
  refine ⟨rfl, rfl, ?_, ?_⟩
  · have := (runEpisodes_lengths hp A episodes
      { qtable := zeroTable, rewards := [], steps := [] }).1
    simpa [run_env_loop] using this
  · have := (runEpisodes_lengths hp A episodes
      { qtable := zeroTable, rewards := [], steps := [] }).2
    simpa [run_env_loop] using this

/-- C6: in both loops, after every step the `done` flag equals
`terminated || truncated` of that step, the flag starts out false, the step
loop takes another step exactly when the flag is false, and stops as soon as
it is true. -/
theorem done_iff_terminated_or_truncated (hp : Hyper) (A : Nat) :
    (∀ st rnd out, (trainStep hp A st rnd out).done = (out.terminated || out.truncated))
  ∧ (∀ st out, (evalStep A st out).done = (out.terminated || out.truncated))
  ∧ (∀ q s0, (initEpState q s0).done = false)
  ∧ (∀ st (step : StepRand × StepOutcome) rest, st.done = false →
      runEpisodeAux hp A st (step :: rest)
        = runEpisodeAux hp A (trainStep hp A st step.1 step.2) rest)
  ∧ (∀ st trace, st.done = true → runEpisodeAux hp A st trace = st)
  ∧ (∀ st out rest, st.done = false →
      evalEpisodeAux A st (out :: rest) = evalEpisodeAux A (evalStep A st out) rest)
  ∧ (∀ st trace, st.done = true → evalEpisodeAux A st trace = st) := by
  refine ⟨fun _ _ _ => rfl, fun _ _ => rfl, fun _ _ => rfl, ?_, ?_, ?_, ?_⟩
  · intro st step rest h
    show (if st.done = true then st
          else runEpisodeAux hp A (trainStep hp A st step.1 step.2) rest)
        = runEpisodeAux hp A (trainStep hp A st step.1 step.2) rest
    rw [h]
    simp
  · intro st trace h
    cases trace with
    | nil => rfl
    | cons x rest =>
        show (if st.done = true then st
              else runEpisodeAux hp A (trainStep hp A st x.1 x.2) rest) = st
        rw [h]
        simp
  · intro st out rest h
    show (if st.done = true then st
          else evalEpisodeAux A (evalStep A st out) rest)
        = evalEpisodeAux A (evalStep A st out) rest
    rw [h]
    simp
  · intro st trace h
    cases trace with
    | nil => rfl
    | cons x rest =>
        show (if st.done = true then st
              else evalEpisodeAux A (evalStep A st x) rest) = st
        rw [h]
        simp

theorem done_iff_witness :
    (trainStep hpSrc 1 (initEpState zeroTable 0) ⟨1/2, 0⟩ ⟨0, 0, true, false⟩).done
        = (true || false)
  ∧ runEpisodeAux hpSrc 1 (initEpState zeroTable 0) [(⟨1/2, 0⟩, ⟨0, 0, true, false⟩)]
        = runEpisodeAux hpSrc 1
            (trainStep hpSrc 1 (initEpState zeroTable 0) ⟨1/2, 0⟩ ⟨0, 0, true, false⟩) []
  ∧ evalEpisodeAux 1
        { qtable := zeroTable, state := 0, episode_reward := 0,
          episode_steps := 0, done := true } [⟨0, 0, false, false⟩]
        = { qtable := zeroTable, state := 0, episode_reward := 0,
            episode_steps := 0, done := true } :=
  ⟨(done_iff_terminated_or_truncated hpSrc 1).1 _ _ _,
   (done_iff_terminated_or_truncated hpSrc 1).2.2.2.1 _ _ _ rfl,
   (done_iff_terminated_or_truncated hpSrc 1).2.2.2.2.2.2 _ _ rfl⟩

theorem evalEpisodeAux_qtable (A : Nat) (trace : List StepOutcome)
    (st : EvalEpState) :
    (evalEpisodeAux A st trace).qtable = st.qtable := by
  induction trace generalizing st with
  | nil => rfl
  | cons out rest ih =>
      show (if st.done = true then st
            else evalEpisodeAux A (evalStep A st out) rest).qtable = st.qtable
      by_cases h : st.done = true
      · rw [if_pos h]
      · rw [if_neg h, ih]
        rfl

theorem evalEpisodes_qtable (A : Nat) (eps : List EvalEpisode)
    (qt : Nat → Nat → ℚ) (es : EvalState) :
    (evalEpisodes A (qt, es) eps).1 = qt := by
  induction eps generalizing qt es with
  | nil => rfl
  | cons ep rest ih =>
      unfold evalEpisodes
      dsimp only
      rw [evalEpisodeAux_qtable]
      exact ih _ _

/-- C7: the evaluation loop only reads the Q-table; after any number of
trial episodes every entry is identical to its value before the call. -/
theorem evaluation_preserves_qtable (qt : Nat → Nat → ℚ) (A : Nat)
    (episodes : List EvalEpisode) (s a : Nat) :
    (evaluation_loop qt A episodes).1 s a = qt s a := by
  unfold evaluation_loop
  rw [evalEpisodes_qtable]

theorem evalEpisodes_successes (A : Nat) (eps : List EvalEpisode)
    (qt : Nat → Nat → ℚ) (es : EvalState)
    (h : es.num_successes = es.rewards.countP (fun r => decide (r = (1:ℚ)))) :
    (evalEpisodes A (qt, es) eps).2.num_successes
      = (evalEpisodes A (qt, es) eps).2.rewards.countP (fun r => decide (r = (1:ℚ))) := by
  induction eps generalizing qt es with
  | nil => exact h
  | cons ep rest ih =>
      unfold evalEpisodes
      dsimp only
      apply ih
      by_cases hr :
          (evalEpisodeAux A
            { qtable := qt, state := ep.init_state, episode_reward := 0,
              episode_steps := 0, done := false } ep.trace).episode_reward = 1 <;>
        simp [hr, List.countP_append, List.countP_cons, h]

theorem evalEpisodes_rewards_length (A : Nat) (eps : List EvalEpisode)
    (qt : Nat → Nat → ℚ) (es : EvalState) :
    (evalEpisodes A (qt, es) eps).2.rewards.length = es.rewards.length + eps.length := by
  induction eps generalizing qt es with
  | nil => simp [evalEpisodes]
  | cons ep rest ih =>
      unfold evalEpisodes
      dsimp only
      rw [ih]
      simp
      omega

/-- C8: the success counter equals the number of episodes whose accumulated
reward is exactly `1`, there is one reward entry per trial, the reported
success rate is `num_successes / num_trials`, and each episode increments the
counter precisely when its accumulated reward is `1`. -/
theorem evaluation_success_rate (qt : Nat → Nat → ℚ) (A : Nat)
    (episodes : List EvalEpisode) :
    (evaluation_loop qt A episodes).2.num_successes
        = (evaluation_loop qt A episodes).2.rewards.countP (fun r => decide (r = (1:ℚ)))
  ∧ (evaluation_loop qt A episodes).2.rewards.length = episodes.length
  ∧ (evaluation_printed qt A episodes).2.2
        = ((evaluation_loop qt A episodes).2.num_successes : ℚ) / (episodes.length : ℚ)
  ∧ (∀ (qt' : Nat → Nat → ℚ) (es' : EvalState) (ep : EvalEpisode),
      (evalEpisodes A (qt', es') [ep]).2.num_successes
        = if (evalEpisodeAux A
              { qtable := qt', state := ep.init_state, episode_reward := 0,
                episode_steps := 0, done := false } ep.trace).episode_reward = 1
          then es'.num_successes + 1 else es'.num_successes) := by
  refine ⟨evalEpisodes_successes A episodes qt _ rfl, ?_, rfl, fun qt' es' ep => rfl⟩
  have := evalEpisodes_rewards_length A episodes qt
    { num_successes := 0, rewards := [], steps := [] }
  simpa [evaluation_loop] using this

theorem except_ok_bind {α β : Type} (x : α) (f : α → Except Unit β) :
    (Except.ok x >>= f : Except Unit β) = f x := rfl

theorem npResolve_out_of_range (n : Nat) (i : Int)
    (h : (n : Int) ≤ i ∨ i < -(n : Int)) : npResolve n i = .error () := by
  unfold npResolve
  rw [if_neg (by omega), if_neg (by omega)]

/-- C9 counterexample: the environment hands back the state index `-1`,
which lies outside `[0, S)` with `S = 1`, yet no error propagates — numpy
silently wraps `-1` to row `S - 1 = 0` and the update is performed there:
the written entry moves from `0` to `alpha * 1 = 1/10`. -/
theorem qUpdateChecked_negative_wraps :
    okEntry (qUpdateChecked hpSrc zeroTable 1 1 0 0 1 (-1)) 0 0
      = Except.ok (1/10 : ℚ) := by
  norm_num [okEntry, qUpdateChecked, npResolve, npArgmax, rowMax, zeroTable,
    hpSrc, List.range_succ, Except.map, Bind.bind, Except.bind, pure, Except.pure]

/-- C9 (amended): a state or action index outside numpy's acceptable range
`[-n, n)` raises `IndexError` before any table write — for `new_state` at
the `qtable[new_state, :]` lookup, for `state`/`action` at the
`qtable[state, action]` read — so the error propagates and no update is
performed; indices in `[-n, 0)` instead wrap silently (see the
counterexample). -/
theorem qUpdateChecked_out_of_range (hp : Hyper) (qt : Nat → Nat → ℚ)
    (S A : Nat) (s a : Int) (r : ℚ) (s' : Int) :
    (((S : Int) ≤ s' ∨ s' < -(S : Int)) →
        qUpdateChecked hp qt S A s a r s' = .error ())
  ∧ (((S : Int) ≤ s ∨ s < -(S : Int)) →
        qUpdateChecked hp qt S A s a r s' = .error ())
  ∧ (((A : Int) ≤ a ∨ a < -(A : Int)) →
        qUpdateChecked hp qt S A s a r s' = .error ()) := by
  refine ⟨fun h => ?_, fun h => ?_, fun h => ?_⟩
  · unfold qUpdateChecked
    rw [npResolve_out_of_range S s' h]
    rfl
  · unfold qUpdateChecked
    cases hns : npResolve S s' with
    | error e => rfl
    | ok ns =>
        rw [except_ok_bind, npResolve_out_of_range S s h]
        rfl
  · unfold qUpdateChecked
    cases hns : npResolve S s' with
    | error e => rfl
    | ok ns =>
        rw [except_ok_bind]
        cases hs : npResolve S s with
        | error e => rfl
        | ok sv =>
            rw [except_ok_bind, npResolve_out_of_range A a h]
            rfl

theorem qUpdateChecked_out_of_range_witness :
    qUpdateChecked hpSrc zeroTable 1 1 0 0 0 5 = .error ()
  ∧ qUpdateChecked hpSrc zeroTable 1 1 9 0 0 0 = .error ()
  ∧ qUpdateChecked hpSrc zeroTable 1 1 0 (-3) 0 0 = .error () :=
  ⟨(qUpdateChecked_out_of_range hpSrc zeroTable 1 1 0 0 0 5).1 (Or.inl (by norm_num)),
   (qUpdateChecked_out_of_range hpSrc zeroTable 1 1 9 0 0 0).2.1 (Or.inl (by norm_num)),
   (qUpdateChecked_out_of_range hpSrc zeroTable 1 1 0 (-3) 0 0).2.2 (Or.inr (by norm_num))⟩
